import Mathlib

/-!
Verification development for the bbdc_book word-correction pipeline
(`src/python/extract_words.py`).  The Python source is shallowly embedded:
pure string manipulation is translated to Lean functions on `String`,
external services (the bbdc.cn recognition oracle, the SiliconFlow LLM
chat endpoint, `json.loads`) are modelled as explicit inputs, and file
system / network effects are recorded in an explicit event trace.
-/

namespace BBDC

/-! ## Python string primitives

Models of the Python `str` operations the pipeline uses.  Whitespace is
the ASCII whitespace set of Python's `str.strip()` / `str.split()`
(`' '`, `'\t'`, `'\n'`, `'\r'`, `'\x0b'`, `'\x0c'`); the words handled
by the pipeline are plain ASCII English words. -/

def isPyWs (c : Char) : Bool :=
  c == ' ' || c == '\t' || c == '\n' || c == '\r' ||
  c == Char.ofNat 11 || c == Char.ofNat 12

/-- Python `s.strip()`: remove leading and trailing whitespace. -/
def pyStrip (s : String) : String :=
  (((s.toList.dropWhile isPyWs).reverse.dropWhile isPyWs).reverse).asString

/-- Python `s.strip(chars)`: remove leading and trailing characters drawn
from `cs`. -/
def pyStripChars (cs : List Char) (s : String) : String :=
  (((s.toList.dropWhile cs.contains).reverse.dropWhile cs.contains).reverse).asString

/-- Helper for `pySplitWs`: accumulate the current token (reversed) while
scanning. -/
def splitWsAux : List Char → List Char → List String
  | [], acc => if acc.isEmpty then [] else [acc.reverse.asString]
  | c :: rest, acc =>
    if isPyWs c then
      if acc.isEmpty then splitWsAux rest []
      else acc.reverse.asString :: splitWsAux rest []
    else splitWsAux rest (c :: acc)

/-- Python `s.split()` (no separator): split on whitespace runs, dropping
empty tokens. -/
def pySplitWs (s : String) : List String :=
  splitWsAux s.toList []

/-- Does `sub` occur at the head of `s`? -/
def isPrefixChars : List Char → List Char → Bool
  | [], _ => true
  | _ :: _, [] => false
  | c :: cs, d :: ds => c == d && isPrefixChars cs ds

/-- Does `sub` occur anywhere in `s`? -/
def containsSub (sub : List Char) : List Char → Bool
  | [] => isPrefixChars sub []
  | c :: rest => isPrefixChars sub (c :: rest) || containsSub sub rest

/-- Python `sub in s` for a non-empty `sub`: substring containment. -/
def pyIn (sub s : String) : Bool :=
  containsSub sub.toList s.toList

/-- Helper for `pySplitOn`: left-to-right, non-overlapping split on a
non-empty separator.  The fuel (any bound above `s.length`) only makes
the recursion structural; each step consumes at least one character. -/
def splitOnSubAux (sep : List Char) : Nat → List Char → List Char → List (List Char)
  | 0, s, acc => [acc.reverse ++ s]
  | fuel + 1, s, acc =>
    match s with
    | [] => [acc.reverse]
    | c :: rest =>
      if isPrefixChars sep s then
        acc.reverse :: splitOnSubAux sep fuel (s.drop sep.length) []
      else
        splitOnSubAux sep fuel rest (c :: acc)

/-- Python `s.split(sep)` for a non-empty separator. -/
def pySplitOn (s sep : String) : List String :=
  (splitOnSubAux sep.toList (s.toList.length + 1) s.toList []).map List.asString

/-- Python `sep.join(parts)`. -/
def joinWith (sep : String) : List String → String
  | [] => ""
  | [x] => x
  | x :: y :: rest => x ++ sep ++ joinWith sep (y :: rest)

/-- Python `s.replace(old, new)` for a non-empty `old`. -/
def pyReplace (s old new : String) : String :=
  joinWith new (pySplitOn s old)

/-- Python `c.lower()` on the ASCII range (the pipeline's words are
ASCII). -/
def pyCharLower (c : Char) : Char :=
  if 65 ≤ c.toNat ∧ c.toNat ≤ 90 then Char.ofNat (c.toNat + 32) else c

/-- Python `s.lower()`. -/
def pyLower (s : String) : String :=
  (s.toList.map pyCharLower).asString

/-- `BBDCWordChecker.parse_result`'s list splitting:
`[w.strip() for w in s.split(',') if w.strip()]`. -/
def splitCommas (s : String) : List String :=
  ((pySplitOn s ",").map pyStrip).filter (fun t => t ≠ "")

/-- The word files are written one word per line (`f.write(word + '\n')`). -/
def joinLines (ws : List String) : String :=
  ws.foldl (fun acc w => acc ++ w ++ "\n") ""

/-! ## JSON model

`json.loads` is external library code; it is modelled as a function
`String → Option PyJson` supplied with the environment (`none` =
`json.JSONDecodeError`).  The pipeline's prompts request JSON objects
with string fields, so `PyJson` keeps string leaves exact and collapses
every other Python value into `jother` carrying an opaque rendering
(such values only ever flow into diagnostic fields, never into control
flow or applied words). -/

inductive PyJson where
  | jstr (s : String)
  | jobj (fields : List (String × PyJson))
  | jother (repr : String)

/-- How a non-`None` Python value ends up when stored into a result dict
field without further method calls. -/
def pyJsonAsStr : PyJson → String
  | .jstr s => s
  | .jother r => r
  | .jobj _ => "<dict>"

/-! ## LLM correction results (`LLMWordCorrector`) -/

/-- Result dict shape of `correct_word` / `_parse_llm_response`. -/
structure CorrResult where
  success : Bool
  original : String
  corrected : String
  confidence : String
  reason : String
deriving Repr, DecidableEq

/-- Outcome of one HTTP call to the LLM chat endpoint.  For a 200 status
the assistant message content is carried (`result['choices'][0]['message']['content']`;
a 200 body that fails JSON extraction raises and is covered by `exn`). -/
inductive LLMCallResult where
  | reply (content : String)
  | httpError (status : Nat)
  | exn (msg : String)

/-- The code-fence extraction prelude shared by `_parse_llm_response`,
`_parse_candidates_response` and `_parse_selection_response`:
strip, then if `'```json' in content` take
`content.split('```json')[1].split('```')[0].strip()`, else if
`'```' in content` take `content.split('```')[1].split('```')[0].strip()`. -/
def extractFenced (content : String) : String :=
  let c := pyStrip content
  if pyIn "```json" c then
    pyStrip ((pySplitOn ((pySplitOn c "```json").getD 1 "") "```").headD "")
  else if pyIn "```" c then
    pyStrip ((pySplitOn ((pySplitOn c "```").getD 1 "") "```").headD "")
  else c

/-- The characters stripped from a best-effort extracted token:
`words[0].strip('",.:;')`. -/
def llmTokenPunct : List Char := ['\"', ',', '.', ':', ';']

/-- `result.get('confidence', 'low')` (non-string values are carried). -/
def confField (fields : List (String × PyJson)) : String :=
  match fields.lookup "confidence" with
  | none => "low"
  | some j => pyJsonAsStr j

/-- `result.get('reason', '无说明')`. -/
def reasonField (fields : List (String × PyJson)) : String :=
  match fields.lookup "reason" with
  | none => "无说明"
  | some j => pyJsonAsStr j

/-- `LLMWordCorrector._parse_llm_response(original_word, content)`.
`loads` models `json.loads`.  A parsed value that is not a dict makes
`result.get` raise `AttributeError`, and a non-string `corrected` value
makes `.strip()` raise; both land in the generic `except Exception`
branch.  A `JSONDecodeError` triggers the token-extraction fallback. -/
def parse_llm_response (loads : String → Option PyJson)
    (original content : String) : CorrResult :=
  match loads (extractFenced content) with
  | some (.jobj fields) =>
    match fields.lookup "corrected" with
    | some (.jstr s) =>
      { success := true, original := original, corrected := pyStrip s,
        confidence := confField fields, reason := reasonField fields }
    | none =>
      { success := true, original := original, corrected := pyStrip original,
        confidence := confField fields, reason := reasonField fields }
    | some _ =>
      { success := false, original := original, corrected := original,
        confidence := "none", reason := "解析响应时出错" }
  | some _ =>
      { success := false, original := original, corrected := original,
        confidence := "none", reason := "解析响应时出错" }
  | none =>
    match pySplitWs (extractFenced content) with
    | w :: _ =>
      { success := true, original := original,
        corrected := pyStripChars llmTokenPunct w,
        confidence := "low", reason := "从响应中提取的单词" }
    | [] =>
      { success := false, original := original, corrected := original,
        confidence := "none", reason := "无法解析LLM响应" }

/-! ## Recognition oracle (`BBDCWordChecker`)

One oracle interaction = `upload_word_file` followed by `parse_result`.
`err` covers every `upload_word_file` failure (timeout, transport error,
non-200 status, a 200 body that is not JSON); `okBad` covers a JSON body
on which `parse_result` itself raises (caught and turned into an error
dict); `okRaw` is a well-formed body carrying the comma-separated
`knowList` / `unknowList` strings of `data_body`. -/

inductive BBDCResponse where
  | err (msg : String)
  | okBad (msg : String)
  | okRaw (knowList unknowList : String)

/-- The fields of `parse_result`'s success dict (the `*_count` fields are
the lengths of these lists and are omitted). -/
structure ParsedResult where
  recognized : List String
  unrecognized : List String
deriving Repr, DecidableEq

/-- `BBDCWordChecker.parse_result` composed with the upload outcome. -/
def parse_result : BBDCResponse → Except String ParsedResult
  | .err m => .error m
  | .okBad m => .error m
  | .okRaw know unknow =>
    .ok { recognized := splitCommas know, unrecognized := splitCommas unknow }

/-- `batch_verify_candidates(bbdc_checker, candidates_list)`: the returned
Python dict is modelled as an association list in input order (the dict
comprehension assigns every input word the same formula, so duplicate
keys agree).  The temp-file write and oracle call are traced by the
caller. -/
def batch_verify_candidates (resp : BBDCResponse) (candidates : List String) :
    List (String × Bool) :=
  if candidates.isEmpty then []
  else
    match parse_result resp with
    | .ok p =>
      let recognized := p.recognized.map pyLower
      candidates.map (fun w => (w, recognized.contains (pyLower w)))
    | .error _ => candidates.map (fun w => (w, false))

/-! ## Effect trace -/

/-- Externally observable effects of a pipeline run: an LLM chat call
(`kind` is `"correct"`, `"generate"` or `"select"`), an oracle upload,
a file write, a file read. -/
inductive Event where
  | llm (kind word : String)
  | oracle
  | write (path content : String)
  | read (path : String)
deriving Repr, DecidableEq

def Event.isLlm : Event → Bool
  | .llm _ _ => true
  | _ => false

def Event.isWrite : Event → Bool
  | .write _ _ => true
  | _ => false

/-! ## FileMutator (`apply_corrections_to_file`) -/

/-- The two fields of a correction dict that `apply_corrections_to_file`
reads. -/
structure ApplyCorr where
  original : String
  corrected : String
deriving Repr, DecidableEq

/-- One pass of the inner loop for a single correction: every line whose
stripped content equals `c.original` is replaced by `c.corrected`. -/
def substLine (c : ApplyCorr) (line : String) : String :=
  if pyStrip line = c.original then c.corrected else line

/-- The nested replacement loops of `apply_corrections_to_file`:
corrections are applied in list order over `content.split('\n')`. -/
def applyCorrectionsLines (corrections : List ApplyCorr) (lines : List String) :
    List String :=
  corrections.foldl (fun ls c => ls.map (substLine c)) lines

structure ApplyResult where
  ok : Bool
  newContent : String
  events : List Event
deriving Repr, DecidableEq

/-- `apply_corrections_to_file(file_path, corrections)` on a file holding
`content`: read, write the backup, rewrite the lines, write back.  The
model covers the non-raising path (`ok = true`); an I/O failure returns
`False` in the source and performs a prefix of this trace. -/
def apply_corrections_to_file (filePath content : String)
    (corrections : List ApplyCorr) : ApplyResult :=
  let newContent :=
    joinWith "\n" (applyCorrectionsLines corrections (pySplitOn content "\n"))
  { ok := true, newContent := newContent,
    events := [.read filePath, .write (filePath ++ ".backup") content,
               .write filePath newContent] }

/-! ## Pipeline data model -/

/-- One entry of `unrecognized_details`: the unrecognized word plus the
meaning and line number recovered from the markdown source
(`find_word_info_in_markdown`, with the `'未找到'` / `'未知'` fallback).
Line numbers are carried as strings since the source mixes ints and the
string `'未知'`. -/
structure Detail where
  word : String
  meaning : String
  line_number : String
deriving Repr, DecidableEq

/-- A round-1 correction dict as it flows through `auto_correct_with_llm`:
the `correct_word` result plus `original_meaning` / `line_number`, and
the `verified` / `verification_status` keys added by the marking loop
(absent keys read through `dict.get(..., False)` are modelled by the
defaults `false` / `""`). -/
structure CorrectionRec where
  success : Bool
  original : String
  corrected : String
  confidence : String
  reason : String
  original_meaning : String
  line_number : String
  verified : Bool := false
  verification_status : String := ""
deriving Repr, DecidableEq

/-- A candidate dict from `_parse_candidates_response`. -/
structure Candidate where
  word : String
  reason : String
deriving Repr, DecidableEq

/-- Outcome of `generate_word_candidates` (every failure path of the
source returns `success=False` together with an empty candidate list). -/
structure CandOutcome where
  success : Bool
  candidates : List Candidate
deriving Repr, DecidableEq

/-- A candidate tagged with its oracle verification verdict
(`candidates_with_status` in `process_failed_corrections`). -/
structure CandidateStatus where
  word : String
  verified : Bool
  reason : String
deriving Repr, DecidableEq

/-- Result dict of `select_best_candidate` / `_parse_selection_response`.
`selected` is `none` exactly when the Python value is `None`; a missing
`confidence` key is modelled as `""` (downstream reads use
`.get('confidence', ...)` only where the key is present). -/
structure SelectionOutcome where
  success : Bool
  selected : Option String
  reason : String
  confidence : String
deriving Repr, DecidableEq

/-- A second-round result dict appended by `process_failed_corrections`. -/
structure R2Result where
  original : String
  selected_word : String
  candidates : List CandidateStatus
  reason : String
  confidence : String
  original_meaning : String
  line_number : String
deriving Repr, DecidableEq

/-- The external world of one pipeline run.  Each component of the
environment stands for one external collaborator: `loads` for
`json.loads`, `correctCall` / `genResult` / `selectCall` for the three
LLM operations (keyed by the word they are invoked for), `round1Verify`
for the oracle response to the round-1 re-verification upload,
`candVerify` for the oracle response to a word's candidate batch, and
`mdInfo` for `find_word_info_in_markdown`.  `enabled` is
`LLMWordCorrector.is_enabled()` (a configured API key). -/
structure PipelineEnv where
  loads : String → Option PyJson
  enabled : Bool
  correctCall : String → LLMCallResult
  round1Verify : BBDCResponse
  genResult : String → CandOutcome
  candVerify : String → BBDCResponse
  selectCall : String → LLMCallResult
  mdInfo : String → Option Detail

/-- The failure dict `correct_word` returns on every non-200 / raising /
disabled path. -/
def corrFail (word reason : String) : CorrResult :=
  { success := false, original := word, corrected := word,
    confidence := "none", reason := reason }

/-- `LLMWordCorrector.correct_word(word, meaning)`.  The meaning only
shapes the prompt, never the control flow. -/
def correct_word (env : PipelineEnv) (word meaning : String) : CorrResult :=
  if env.enabled then
    match env.correctCall word with
    | .reply content => parse_llm_response env.loads word content
    | .httpError s => corrFail word ("API调用失败: HTTP " ++ toString s)
    | .exn m => corrFail word ("调用LLM时出错: " ++ m)
  else corrFail word "LLM功能未启用"

/-- `LLMWordCorrector._parse_selection_response(content)`.  A non-dict
JSON value makes `result.get` raise, landing in the `except` branch. -/
def parse_selection_response (loads : String → Option PyJson)
    (content : String) : SelectionOutcome :=
  match loads (extractFenced content) with
  | some (.jobj fields) =>
    { success := true,
      selected := some (pyJsonAsStr ((fields.lookup "selected").getD (.jstr ""))),
      reason := pyJsonAsStr ((fields.lookup "reason").getD (.jstr "无说明")),
      confidence := pyJsonAsStr ((fields.lookup "confidence").getD (.jstr "medium"))}
  | some _ =>
    { success := false, selected := none, reason := "解析响应失败", confidence := "" }
  | none =>
    { success := false, selected := none, reason := "解析响应失败", confidence := "" }

/-- `LLMWordCorrector.select_best_candidate(original_word, meaning,
candidates_with_status)`.  The second component records whether the
selection engine (the LLM HTTP endpoint) was actually called: the
disabled, zero-verified and single-verified paths return before the
`requests.post`. -/
def select_best_candidate (env : PipelineEnv) (word meaning : String)
    (cands : List CandidateStatus) : SelectionOutcome × Bool :=
  if env.enabled then
    match cands.filter (fun c => c.verified) with
    | [] =>
      ({ success := false, selected := none,
         reason := "没有验证通过的候选词", confidence := "" }, false)
    | [c] =>
      ({ success := true, selected := some c.word,
         reason := "只有一个验证通过的候选词", confidence := "high" }, false)
    | c :: _ :: _ =>
      match env.selectCall word with
      | .reply content => (parse_selection_response env.loads content, true)
      | .httpError _ =>
        ({ success := true, selected := some c.word,
           reason := "API调用失败，返回第一个候选词", confidence := "low" }, true)
      | .exn m =>
        ({ success := true, selected := some c.word,
           reason := "选择失败: " ++ m ++ "，返回第一个候选词",
           confidence := "low" }, true)
  else
    ({ success := false, selected := none, reason := "LLM功能未启用",
       confidence := "" }, false)

/-! ## Round 2 (`process_failed_corrections`) -/

/-- Everything one iteration of the `process_failed_corrections` loop
produces for one failed correction: the status-tagged candidates,
the `select_best_candidate` outcome (`none` when the guard skipped the
call), whether the selection engine HTTP call happened, the appended
result (if any), and the traced effects. -/
structure R2Step where
  marked : List CandidateStatus
  selection : Option SelectionOutcome
  engineCalled : Bool
  result : Option R2Result
  events : List Event
deriving Repr, DecidableEq

/-- `generate_word_candidates(word, meaning)` for a failed correction:
no HTTP call is made when the LLM is disabled (the source returns the
failure dict before posting). -/
def r2GenOutcome (env : PipelineEnv) (c : CorrectionRec) : CandOutcome :=
  if env.enabled then env.genResult c.original
  else { success := false, candidates := [] }

/-- The `candidates_with_status` list of `process_failed_corrections`:
each generated candidate tagged with
`verification_results.get(word, False)`. -/
def r2MarkedCandidates (env : PipelineEnv) (c : CorrectionRec) :
    List CandidateStatus :=
  let cands := (r2GenOutcome env c).candidates
  let vr := batch_verify_candidates (env.candVerify c.original)
    (cands.map (fun cd => cd.word))
  cands.map (fun cd =>
    { word := cd.word, verified := (vr.lookup cd.word).getD false,
      reason := cd.reason })

/-- One iteration of the loop body of `process_failed_corrections` for
the failed correction `c` (the word is `c['original']`, the meaning
`c['original_meaning']`).  `batch_verify_candidates` writes its temp
word file and performs one oracle upload. -/
def processFailedOne (env : PipelineEnv) (c : CorrectionRec) : R2Step :=
  let gen := r2GenOutcome env c
  let genEvents : List Event :=
    if env.enabled then [.llm "generate" c.original] else []
  if gen.success = false ∨ gen.candidates = [] then
    { marked := [], selection := none, engineCalled := false, result := none,
      events := genEvents }
  else
    let candidateWords := gen.candidates.map (fun cd => cd.word)
    let verifyEvents : List Event :=
      [.write "temp_candidates_verify.txt" (joinLines candidateWords), .oracle]
    let marked := r2MarkedCandidates env c
    if marked.countP (fun cd => cd.verified) = 0 then
      { marked := marked, selection := none, engineCalled := false,
        result := none, events := genEvents ++ verifyEvents }
    else
      let sel := select_best_candidate env c.original c.original_meaning marked
      let selEvents : List Event := if sel.2 then [.llm "select" c.original] else []
      let result : Option R2Result :=
        match sel.1.selected with
        | some s =>
          if sel.1.success = true ∧ s ≠ "" then
            some { original := c.original, selected_word := s, candidates := marked,
                   reason := sel.1.reason, confidence := sel.1.confidence,
                   original_meaning := c.original_meaning,
                   line_number := c.line_number }
          else none
        | none => none
      { marked := marked, selection := some sel.1, engineCalled := sel.2,
        result := result, events := genEvents ++ verifyEvents ++ selEvents }

/-- `process_failed_corrections(failed_corrections, ...)`: the loop
appends results and effects in iteration order and carries no state
across iterations. -/
def process_failed_corrections (env : PipelineEnv) (failed : List CorrectionRec) :
    List R2Result × List Event :=
  (failed.filterMap (fun c => (processFailedOne env c).result),
   failed.flatMap (fun c => (processFailedOne env c).events))

/-! ## Round 1 and orchestration (`auto_correct_with_llm`) -/

/-- The round-1 correction record built for one unrecognized detail
(`correct_word` result plus the two keys added at the call site). -/
def round1Record (env : PipelineEnv) (d : Detail) : CorrectionRec :=
  let r := correct_word env d.word d.meaning
  { success := r.success, original := r.original, corrected := r.corrected,
    confidence := r.confidence, reason := r.reason,
    original_meaning := d.meaning, line_number := d.line_number }

/-- The `correction_results` list of `auto_correct_with_llm` before the
marking loop. -/
def r1Records (env : PipelineEnv) (details : List Detail) : List CorrectionRec :=
  details.map (round1Record env)

/-- The `corrected_words` list collected for batch re-verification: the
corrected word of every successful correction that differs
case-insensitively from its original. -/
def r1CorrectedWords (round1 : List CorrectionRec) : List String :=
  round1.filterMap (fun c =>
    if c.success = true ∧ pyLower c.corrected ≠ pyLower c.original
    then some c.corrected else none)

/-- The round-1 verification marking loop, executed once the oracle
upload of the corrected words parsed successfully:
a successful correction is verified iff its lowercased corrected word is
in the lowercased recognized set; a failed correction is tagged
`'⚠️  未更正'`. -/
def markRound1 (recognizedLower : List String) (c : CorrectionRec) : CorrectionRec :=
  if c.success then
    if recognizedLower.contains (pyLower c.corrected) then
      { c with verified := true, verification_status := "✅ 验证通过" }
    else
      { c with verified := false, verification_status := "❌ 验证失败" }
  else
    { c with verified := false, verification_status := "⚠️  未更正" }

/-- `verified_corrections.append(...)` for a second-round result: note
the record is created with `verified = True` and the status
`'✅ 二次处理验证通过'` without any further oracle check of
`selected_word` (the dict carries no `success` key; the model fixes it
to `true`, no reader consults it). -/
def r2ToRec (r : R2Result) : CorrectionRec :=
  { success := true, original := r.original, corrected := r.selected_word,
    confidence := r.confidence, reason := r.reason,
    original_meaning := r.original_meaning, line_number := r.line_number,
    verified := true, verification_status := "✅ 二次处理验证通过" }

/-- Everything `auto_correct_with_llm` computes: the round-1 records
before the marking loop (`round1`), the corrected words collected for
re-verification (`correctedWords`), the records after marking
(`corrections`, the final `llm_corrections`), the round-1
`verified_corrections` (`verifiedR1`), the second-round results, the
final list handed to `apply_corrections_to_file` (`allToApply`), the
`corrections_applied` flag (`none` = key absent), the word-list file
content after the run, and the effect trace. -/
structure AutoCorrectResult where
  round1 : List CorrectionRec
  correctedWords : List String
  corrections : List CorrectionRec
  verifiedR1 : List CorrectionRec
  secondRound : List R2Result
  allToApply : List CorrectionRec
  correctionsApplied : Option Bool
  newContent : String
  events : List Event

/-- The round-1 verification block of `auto_correct_with_llm`
(lines 735-779 of the source): if any corrected word differs from its
original, write them to the `_llm_corrected_temp` file, upload, and on a
successfully parsed response run the marking loop.  Returns the
(possibly marked) records, the `verified_corrections` list and the
traced events. -/
def round1Verify (env : PipelineEnv) (filePath : String)
    (round1 : List CorrectionRec) (correctedWords : List String) :
    List CorrectionRec × List CorrectionRec × List Event :=
  if correctedWords = [] then (round1, [], [])
  else
    let tempPath := pyReplace filePath ".txt" "_llm_corrected_temp.txt"
    let evs : List Event := [.write tempPath (joinLines correctedWords), .oracle]
    match parse_result env.round1Verify with
    | .error _ => (round1, [], evs)
    | .ok vp =>
      let recognizedLower := vp.recognized.map pyLower
      let marked := round1.map (markRound1 recognizedLower)
      (marked, marked.filter (fun c => c.verified), evs)

/-- `auto_correct_with_llm(parsed_result, unrecognized_details,
llm_corrector, bbdc_checker, original_file_path)` over a word-list file
currently holding `content`. -/
def auto_correct_with_llm (env : PipelineEnv) (details : List Detail)
    (filePath content : String) : AutoCorrectResult :=
  let round1 := r1Records env details
  let r1Events : List Event :=
    details.flatMap (fun d => if env.enabled then [Event.llm "correct" d.word] else [])
  let correctedWords := r1CorrectedWords round1
  let verifyStep := round1Verify env filePath round1 correctedWords
  let corrections := verifyStep.1
  let verifiedR1 := verifyStep.2.1
  let successful := corrections.countP (fun c => c.verified)
  let failed := corrections.filter (fun c => !c.verified)
  let runSecond := failed ≠ [] ∧ successful < corrections.length
  let second := if runSecond then process_failed_corrections env failed else ([], [])
  let secondRound := second.1
  let allToApply :=
    if secondRound = [] then verifiedR1
    else verifiedR1 ++ (secondRound.filterMap (fun r =>
      if r.selected_word ≠ "" then some (r2ToRec r) else none))
  let applyStep :=
    if allToApply = [] then (none, content, ([] : List Event))
    else
      let ar := apply_corrections_to_file filePath content
        (allToApply.map (fun c => { original := c.original, corrected := c.corrected }))
      (some ar.ok, ar.newContent, ar.events)
  { round1 := round1, correctedWords := correctedWords,
    corrections := corrections, verifiedR1 := verifiedR1,
    secondRound := secondRound, allToApply := allToApply,
    correctionsApplied := applyStep.1, newContent := applyStep.2.1,
    events := r1Events ++ verifyStep.2.2 ++ second.2 ++ applyStep.2.2 }

/-! ## Top-level check (`check_words_with_bbdc`) -/

/-- The parts of the final `parsed_result` dict the claims mention. -/
structure CheckOutcome where
  recognized : List String
  unrecognized : List String
  details : List Detail
  auto : Option AutoCorrectResult

/-- `check_words_with_bbdc(file_path, words_list, original_md_file,
use_llm)`: one oracle upload of the word list (`initResp`), detail
lookup for each unrecognized word, and — only when `use_llm` is set, the
detail list is non-empty and the LLM is enabled — the correction
workflow.  Returns `none` when the initial upload or its parsing fails. -/
def check_words_with_bbdc (env : PipelineEnv) (initResp : BBDCResponse)
    (filePath content : String) (use_llm : Bool) :
    Option CheckOutcome × List Event :=
  match parse_result initResp with
  | .error _ => (none, [.oracle])
  | .ok p =>
    let details := p.unrecognized.map (fun w =>
      (env.mdInfo w).getD { word := w, meaning := "未找到", line_number := "未知" })
    if use_llm = true ∧ details ≠ [] then
      if env.enabled then
        let A := auto_correct_with_llm env details filePath content
        (some { recognized := p.recognized, unrecognized := p.unrecognized,
                details := details, auto := some A },
         .oracle :: A.events)
      else
        (some { recognized := p.recognized, unrecognized := p.unrecognized,
                details := details, auto := none }, [.oracle])
    else
      (some { recognized := p.recognized, unrecognized := p.unrecognized,
              details := details, auto := none }, [.oracle])

/-! ## Concrete environments used by witnesses and counterexamples -/

/-- A benign environment: the LLM proposes `receive` for `recieve` and
echoes `NLP` for `nlp`; the round-1 oracle recognizes `receive` only;
candidate generation yields `example` (recognized) and `zzqq` (not). -/
def demoEnv : PipelineEnv where
  loads := fun s =>
    if s == "R1" then
      some (.jobj [("corrected", .jstr "receive"), ("confidence", .jstr "high"),
                   ("reason", .jstr "fixed ie")])
    else if s == "R2" then
      some (.jobj [("corrected", .jstr "NLP"), ("confidence", .jstr "high"),
                   ("reason", .jstr "acronym")])
    else none
  enabled := true
  correctCall := fun w =>
    if w == "recieve" then .reply "R1"
    else if w == "nlp" then .reply "R2"
    else .exn "unexpected"
  round1Verify := .okRaw "receive" "nlp"
  genResult := fun _ => { success := true,
                          candidates := [⟨"example", "root"⟩, ⟨"zzqq", "guess"⟩] }
  candVerify := fun _ => .okRaw "example" "zzqq"
  selectCall := fun _ => .exn "unreached"
  mdInfo := fun _ => none

/-- A failed round-1 record fed to the second round in witnesses. -/
def demoFailedRec : CorrectionRec :=
  { success := true, original := "xqplm", corrected := "xqpl",
    confidence := "low", reason := "guess", original_meaning := "unclear",
    line_number := "3" }

/-- Environment for the C9 witness: every LLM reply is unparseable JSON,
and the correction endpoint fails with HTTP 500 or a timeout exception
depending on the word. -/
def c9env : PipelineEnv where
  loads := fun _ => none
  enabled := true
  correctCall := fun w => if w == "tmout" then .exn "timeout" else .httpError 500
  round1Verify := .err "unused"
  genResult := fun _ => { success := false, candidates := [] }
  candVerify := fun _ => .err "unused"
  selectCall := fun _ => .exn "unused"
  mdInfo := fun _ => none

/-- Environment realizing the C1 failing input: round-1 proposes `xqpl`
for `xqplm` (rejected by the oracle), candidate generation yields the
verified candidates `example` and `template`, and the selection engine
replies with the out-of-list word `zzzz`. -/
def c1env : PipelineEnv where
  loads := fun s =>
    if s == "CORRECT_REPLY" then
      some (.jobj [("corrected", .jstr "xqpl"), ("confidence", .jstr "low"),
                   ("reason", .jstr "guess")])
    else if s == "SELECT_REPLY" then
      some (.jobj [("selected", .jstr "zzzz"), ("confidence", .jstr "high"),
                   ("reason", .jstr "frequency")])
    else none
  enabled := true
  correctCall := fun _ => .reply "CORRECT_REPLY"
  round1Verify := .okRaw "" "xqpl"
  genResult := fun _ => { success := true,
                          candidates := [⟨"example", "root"⟩, ⟨"template", "near"⟩] }
  candVerify := fun _ => .okRaw "example,template" ""
  selectCall := fun _ => .reply "SELECT_REPLY"
  mdInfo := fun _ => none

/-! ## Helper lemmas -/

theorem applyCorrectionsLines_cons (c : ApplyCorr) (cs : List ApplyCorr)
    (lines : List String) :
    applyCorrectionsLines (c :: cs) lines
      = applyCorrectionsLines cs (lines.map (substLine c)) := rfl

theorem applyCorrectionsLines_length (cs : List ApplyCorr) (lines : List String) :
    (applyCorrectionsLines cs lines).length = lines.length := by
  induction cs generalizing lines with
  | nil => rfl
  | cons c cs ih => rw [applyCorrectionsLines_cons, ih, List.length_map]

/-- Frame lemma: a line whose stripped content matches no correction is
untouched by the replacement loops. -/
theorem applyCorrectionsLines_frame (cs : List ApplyCorr) (lines : List String)
    (i : Nat) (l : String) (hl : lines[i]? = some l)
    (hnm : ∀ c ∈ cs, pyStrip l ≠ c.original) :
    (applyCorrectionsLines cs lines)[i]? = some l := by
  induction cs generalizing lines with
  | nil => exact hl
  | cons c cs ih =>
    rw [applyCorrectionsLines_cons]
    refine ih (lines.map (substLine c)) ?_ (fun c' hc' => hnm c' (List.mem_cons_of_mem _ hc'))
    rw [List.getElem?_map, hl]
    simp [substLine, hnm c (List.mem_cons_self _ _)]

/-- A line matching some correction ends up holding the corrected value
of the first matching correction, provided no correction's output strips
to a later correction's original (the no-chaining condition forced by
`C4_counterexample`). -/
theorem applyCorrections_first_match :
    ∀ (cs : List ApplyCorr) (lines : List String) (i : Nat) (l : String),
    cs.Pairwise (fun c1 c2 => pyStrip c1.corrected ≠ c2.original) →
    lines[i]? = some l → (∃ c ∈ cs, c.original = pyStrip l) →
    ∃ c ∈ cs, c.original = pyStrip l ∧
      (applyCorrectionsLines cs lines)[i]? = some c.corrected
  | [], _, _, _, _, _, hm => by simp at hm
  | c :: cs, lines, i, l, hchain, hl, hm => by
    rw [List.pairwise_cons] at hchain
    obtain ⟨hhead, htail⟩ := hchain
    rw [applyCorrectionsLines_cons]
    by_cases hs : pyStrip l = c.original
    · refine ⟨c, List.mem_cons_self _ _, hs.symm, ?_⟩
      refine applyCorrectionsLines_frame cs (lines.map (substLine c)) i c.corrected ?_ hhead
      rw [List.getElem?_map, hl]
      simp [substLine, hs]
    · obtain ⟨c', hc', horig⟩ := hm
      rcases List.mem_cons.mp hc' with rfl | hmem
      · exact absurd horig.symm hs
      · have hl' : (lines.map (substLine c))[i]? = some l := by
          rw [List.getElem?_map, hl]
          simp [substLine, hs]
        obtain ⟨c2, hc2, horig2, hres⟩ :=
          applyCorrections_first_match cs (lines.map (substLine c)) i l htail hl'
            ⟨c', hmem, horig⟩
        exact ⟨c2, List.mem_cons_of_mem _ hc2, horig2, hres⟩

/-- Every branch of `_parse_llm_response` carries the original word
through. -/
theorem parse_llm_response_original (loads : String → Option PyJson)
    (original content : String) :
    (parse_llm_response loads original content).original = original := by
  unfold parse_llm_response
  split <;> first | rfl | (split <;> rfl)

/-- A non-success `_parse_llm_response` result echoes the original word. -/
theorem parse_llm_response_fail_corrected (loads : String → Option PyJson)
    (original content : String) :
    (parse_llm_response loads original content).success = false →
    (parse_llm_response loads original content).corrected = original := by
  unfold parse_llm_response
  split <;> (try split) <;> intro h <;> first | rfl | simp_all

/-- Every branch of `correct_word` carries the original word through. -/
theorem correct_word_original (env : PipelineEnv) (word meaning : String) :
    (correct_word env word meaning).original = word := by
  unfold correct_word
  split
  · split
    · exact parse_llm_response_original env.loads word _
    · rfl
    · rfl
  · rfl

/-- A non-success `correct_word` result echoes the original word. -/
theorem correct_word_fail_corrected (env : PipelineEnv) (word meaning : String) :
    (correct_word env word meaning).success = false →
    (correct_word env word meaning).corrected = word := by
  unfold correct_word
  split
  · split
    · exact parse_llm_response_fail_corrected env.loads word _
    · intro _; rfl
    · intro _; rfl
  · intro _; rfl

theorem round1Record_original (env : PipelineEnv) (d : Detail) :
    (round1Record env d).original = d.word :=
  correct_word_original env d.word d.meaning

/-- Round-1 records enter the marking loop with no `verified` key
(`dict.get('verified', False)` reads `False`). -/
theorem round1Record_unverified (env : PipelineEnv) (d : Detail) :
    (round1Record env d).verified = false := rfl

theorem markRound1_original (recognizedLower : List String) (c : CorrectionRec) :
    (markRound1 recognizedLower c).original = c.original := by
  unfold markRound1
  split <;> (try split) <;> rfl

theorem markRound1_success (recognizedLower : List String) (c : CorrectionRec) :
    (markRound1 recognizedLower c).success = c.success := by
  unfold markRound1
  split <;> (try split) <;> rfl

theorem markRound1_corrected (recognizedLower : List String) (c : CorrectionRec) :
    (markRound1 recognizedLower c).corrected = c.corrected := by
  unfold markRound1
  split <;> (try split) <;> rfl

/-- The unique verified candidate short-circuits `select_best_candidate`:
it is returned with confidence `high` and the engine is not called. -/
theorem select_best_single (env : PipelineEnv) (word meaning : String)
    (cands : List CandidateStatus) (w : CandidateStatus)
    (he : env.enabled = true)
    (hf : cands.filter (fun cd => cd.verified) = [w]) :
    select_best_candidate env word meaning cands =
      ({ success := true, selected := some w.word,
         reason := "只有一个验证通过的候选词", confidence := "high" }, false) := by
  unfold select_best_candidate
  rw [if_pos he, hf]

/-! ## Claims C3, C4, C5, C9, C10 -/

/-- C3: `batch_verify_candidates` is fail-closed — for every non-empty
candidate list, if the oracle interaction fails (upload error, non-200
status, invalid JSON, or an unparseable result body, i.e. `parse_result`
yields an error), the returned membership map keys exactly the input
words and maps every one of them to `false`. -/
theorem C3_fail_closed (resp : BBDCResponse) (candidates : List String)
    (hne : candidates ≠ [])
    (hfail : ∃ m, parse_result resp = .error m) :
    ((batch_verify_candidates resp candidates).map Prod.fst = candidates) ∧
    ∀ p ∈ batch_verify_candidates resp candidates, p.2 = false := by
  obtain ⟨m, hm⟩ := hfail
  unfold batch_verify_candidates
  rw [hm, if_neg (by simpa using hne)]
  constructor
  · show (candidates.map (fun w => (w, false))).map Prod.fst = candidates
    clear hne
    induction candidates with
    | nil => rfl
    | cons a l ih => simpa using ih
  · intro p hp
    have hp' : p ∈ candidates.map (fun w => (w, false)) := hp
    obtain ⟨w, _, rfl⟩ := List.mem_map.mp hp'
    rfl

theorem C3_witness :
    (["recieve"] ≠ ([] : List String)) ∧
    (∃ m, parse_result (.err "Request timeout") = .error m) ∧
    (((batch_verify_candidates (.err "Request timeout") ["recieve"]).map Prod.fst
        = ["recieve"]) ∧
     ∀ p ∈ batch_verify_candidates (.err "Request timeout") ["recieve"], p.2 = false) :=
  ⟨by decide, ⟨"Request timeout", rfl⟩,
   C3_fail_closed (.err "Request timeout") ["recieve"] (by decide)
     ⟨"Request timeout", rfl⟩⟩

/-- C4 counterexample: with the corrections `a → b` and `b → c` applied
to the one-line file `a`, the line's trimmed content matches only the
correction `a → b`, yet the final line is `c`, not that correction's
corrected value — the sequential passes chain replacements, so a matching
line is not, in general, replaced by its matching correction's value in
the final file. -/
theorem C4_counterexample :
    applyCorrectionsLines [⟨"a", "b"⟩, ⟨"b", "c"⟩] ["a"] = ["c"] ∧
    ¬ ∃ c ∈ [ApplyCorr.mk "a" "b", ApplyCorr.mk "b" "c"],
        c.original = pyStrip "a" ∧ ["c"] = [c.corrected] := by
  constructor
  · rfl
  · decide

/-- C4 (amended): corrections are applied in order, pass by pass; when no
correction's corrected value strips to a later correction's original (the
no-chaining condition), every line whose trimmed content equals some
supplied correction's original is replaced by such a correction's
corrected value in the final line list — and all matching lines are so
replaced (the statement covers every matching index `i`). -/
theorem C4_replace_matching_lines (corrections : List ApplyCorr)
    (lines : List String)
    (hchain : corrections.Pairwise (fun c1 c2 => pyStrip c1.corrected ≠ c2.original))
    (i : Nat) (l : String) (hl : lines[i]? = some l)
    (hm : ∃ c ∈ corrections, c.original = pyStrip l) :
    ∃ c ∈ corrections, c.original = pyStrip l ∧
      (applyCorrectionsLines corrections lines)[i]? = some c.corrected :=
  applyCorrections_first_match corrections lines i l hchain hl hm

theorem C4_witness :
    ([ApplyCorr.mk "recieve" "receive"].Pairwise
       (fun c1 c2 => pyStrip c1.corrected ≠ c2.original)) ∧
    (["recieve", "other"][0]? = some "recieve") ∧
    (∃ c ∈ [ApplyCorr.mk "recieve" "receive"], c.original = pyStrip "recieve") ∧
    (∃ c ∈ [ApplyCorr.mk "recieve" "receive"], c.original = pyStrip "recieve" ∧
       (applyCorrectionsLines [ApplyCorr.mk "recieve" "receive"]
          ["recieve", "other"])[0]? = some c.corrected) :=
  ⟨by decide, rfl, by decide,
   C4_replace_matching_lines [ApplyCorr.mk "recieve" "receive"]
     ["recieve", "other"] (by decide) 0 "recieve" rfl (by decide)⟩

/-- C5: `apply_corrections_to_file` writes a backup at
`filePath + ".backup"` whose content is byte-identical to the file
content read before any mutation, and this backup write strictly
precedes every write to the word-list file itself in the effect trace. -/
theorem C5_backup_before_mutation (filePath content : String)
    (corrections : List ApplyCorr) :
    ∃ k : Nat, (apply_corrections_to_file filePath content corrections).events[k]?
           = some (Event.write (filePath ++ ".backup") content) ∧
      ∀ (j : Nat) (c2 : String),
        (apply_corrections_to_file filePath content corrections).events[j]?
           = some (Event.write filePath c2) → k < j := by
  refine ⟨1, rfl, ?_⟩
  intro j c2 hj
  match j, hj with
  | 0, hj => exact absurd hj (by simp [apply_corrections_to_file])
  | 1, hj =>
    exfalso
    have h1 : (apply_corrections_to_file filePath content corrections).events[1]?
        = some (Event.write (filePath ++ ".backup") content) := rfl
    rw [h1] at hj
    have hpath : filePath ++ ".backup" = filePath :=
      (Event.write.inj (Option.some.inj hj)).1
    have hlen := congrArg String.length hpath
    rw [String.length_append] at hlen
    have h7 : (".backup" : String).length = 7 := rfl
    rw [h7] at hlen
    omega
  | 2, _ => exact Nat.one_lt_two
  | (n + 3), hj => exact absurd hj (by simp [apply_corrections_to_file])

theorem C5_witness :
    ∃ k : Nat, (apply_corrections_to_file "words.txt" "recieve"
            [ApplyCorr.mk "recieve" "receive"]).events[k]?
           = some (Event.write ("words.txt" ++ ".backup") "recieve") ∧
      ∀ (j : Nat) (c2 : String),
        (apply_corrections_to_file "words.txt" "recieve"
            [ApplyCorr.mk "recieve" "receive"]).events[j]?
           = some (Event.write "words.txt" c2) → k < j :=
  C5_backup_before_mutation "words.txt" "recieve" [ApplyCorr.mk "recieve" "receive"]

/-- C10: frame property of `apply_corrections_to_file`'s replacement
loops — a line whose trimmed content equals no supplied correction's
original appears unchanged at the same index of the rewritten line list,
and the number of lines is preserved. -/
theorem C10_frame_property (corrections : List ApplyCorr) (lines : List String)
    (i : Nat) (l : String) (hl : lines[i]? = some l)
    (hnm : ∀ c ∈ corrections, pyStrip l ≠ c.original) :
    (applyCorrectionsLines corrections lines)[i]? = some l ∧
    (applyCorrectionsLines corrections lines).length = lines.length :=
  ⟨applyCorrectionsLines_frame corrections lines i l hl hnm,
   applyCorrectionsLines_length corrections lines⟩

theorem C10_witness :
    (["recieve", "hello"][1]? = some "hello") ∧
    (∀ c ∈ [ApplyCorr.mk "recieve" "receive"], pyStrip "hello" ≠ c.original) ∧
    ((applyCorrectionsLines [ApplyCorr.mk "recieve" "receive"]
        ["recieve", "hello"])[1]? = some "hello" ∧
     (applyCorrectionsLines [ApplyCorr.mk "recieve" "receive"]
        ["recieve", "hello"]).length = ["recieve", "hello"].length) :=
  ⟨rfl, by decide,
   C10_frame_property [ApplyCorr.mk "recieve" "receive"] ["recieve", "hello"]
     1 "hello" rfl (by decide)⟩

/-- C9 counterexample: for the raw reply `"helo" wrong` — non-empty text
that is not parseable as JSON — the returned corrected value is `helo`
(the first token with the quote stripped), not the first
whitespace-delimited token of the raw reply, which is `"helo"` quotes
included.  (`json.loads` rejects this reply with trailing data, modelled
by the constant-`none` loads.) -/
theorem C9_counterexample :
    (parse_llm_response (fun _ => none) "recieve" "\"helo\" wrong").corrected
      = "helo" ∧
    (parse_llm_response (fun _ => none) "recieve" "\"helo\" wrong").confidence
      = "low" ∧
    (pySplitWs "\"helo\" wrong").head? = some "\"helo\"" ∧
    (parse_llm_response (fun _ => none) "recieve" "\"helo\" wrong").corrected
      ≠ "\"helo\"" := by
  refine ⟨rfl, rfl, rfl, by decide⟩

/-- C9 (amended): two-step degradation of `correct_word`.  On a reply
that is not parseable as JSON: if the code-fence-extracted, stripped
reply has a first whitespace token, the corrected value is that token
with surrounding characters among `",.:;` stripped, at confidence `low`;
if it has no token, the original word is returned at confidence `none`.
On HTTP error or a raised exception the original word is returned at
confidence `none` with `success = False`. -/
theorem C9_degradation (env : PipelineEnv) (original content : String)
    (hnp : env.loads (extractFenced content) = none) :
    (∀ w ws, pySplitWs (extractFenced content) = w :: ws →
      parse_llm_response env.loads original content =
        { success := true, original := original,
          corrected := pyStripChars llmTokenPunct w,
          confidence := "low", reason := "从响应中提取的单词" }) ∧
    (pySplitWs (extractFenced content) = [] →
      parse_llm_response env.loads original content =
        { success := false, original := original, corrected := original,
          confidence := "none", reason := "无法解析LLM响应" }) ∧
    (∀ word meaning s, env.enabled = true → env.correctCall word = .httpError s →
      (correct_word env word meaning).corrected = word ∧
      (correct_word env word meaning).confidence = "none" ∧
      (correct_word env word meaning).success = false) ∧
    (∀ word meaning m, env.enabled = true → env.correctCall word = .exn m →
      (correct_word env word meaning).corrected = word ∧
      (correct_word env word meaning).confidence = "none" ∧
      (correct_word env word meaning).success = false) := by
  refine ⟨?_, ?_, ?_, ?_⟩
  · intro w ws hw
    unfold parse_llm_response
    rw [hnp, hw]
  · intro hw
    unfold parse_llm_response
    rw [hnp, hw]
  · intro word meaning s he hc
    unfold correct_word
    rw [he, hc]
    exact ⟨rfl, rfl, rfl⟩
  · intro word meaning m he hc
    unfold correct_word
    rw [he, hc]
    exact ⟨rfl, rfl, rfl⟩

theorem C9_witness :
    (c9env.loads (extractFenced "receive fixed spelling") = none) ∧
    (pySplitWs (extractFenced "receive fixed spelling")
       = ["receive", "fixed", "spelling"]) ∧
    (parse_llm_response c9env.loads "recieve" "receive fixed spelling" =
      { success := true, original := "recieve", corrected := "receive",
        confidence := "low", reason := "从响应中提取的单词" }) ∧
    (c9env.correctCall "w500" = .httpError 500) ∧
    ((correct_word c9env "w500" "m").corrected = "w500" ∧
     (correct_word c9env "w500" "m").confidence = "none" ∧
     (correct_word c9env "w500" "m").success = false) ∧
    (c9env.correctCall "tmout" = .exn "timeout") ∧
    ((correct_word c9env "tmout" "m").corrected = "tmout" ∧
     (correct_word c9env "tmout" "m").confidence = "none" ∧
     (correct_word c9env "tmout" "m").success = false) :=
  ⟨rfl, by decide,
   by
     have h := (C9_degradation c9env "recieve" "receive fixed spelling" rfl).1
     simpa using h "receive" ["fixed", "spelling"] (by decide),
   rfl,
   (C9_degradation c9env "recieve" "receive fixed spelling" rfl).2.2.1
     "w500" "m" 500 rfl rfl,
   rfl,
   (C9_degradation c9env "recieve" "receive fixed spelling" rfl).2.2.2
     "tmout" "m" "timeout" rfl rfl⟩

/-! ## Claims C6, C7, C8 -/

/-- C6: round-2 selection guards.  For a word whose candidate
verification yields zero verified candidates, `select_best_candidate` is
never invoked (and in particular no selection-engine LLM call is made);
for a word with exactly one verified candidate, that candidate is
selected with confidence `high` and no engine call is made. -/
theorem C6_selection_guard (env : PipelineEnv) (c : CorrectionRec) :
    ((processFailedOne env c).marked.countP (fun cd => cd.verified) = 0 →
      (processFailedOne env c).selection = none ∧
      (processFailedOne env c).engineCalled = false) ∧
    (env.enabled = true →
      ∀ w, (processFailedOne env c).marked.filter (fun cd => cd.verified) = [w] →
        (processFailedOne env c).selection =
          some { success := true, selected := some w.word,
                 reason := "只有一个验证通过的候选词", confidence := "high" } ∧
        (processFailedOne env c).engineCalled = false) := by
  by_cases h1 : (r2GenOutcome env c).success = false ∨ (r2GenOutcome env c).candidates = []
  · have hstep : processFailedOne env c =
        { marked := [], selection := none, engineCalled := false, result := none,
          events := if env.enabled then [Event.llm "generate" c.original] else [] } := by
      unfold processFailedOne
      rw [if_pos h1]
    rw [hstep]
    refine ⟨fun _ => ⟨rfl, rfl⟩, fun _ w hw => ?_⟩
    simp at hw
  · by_cases h2 : (r2MarkedCandidates env c).countP (fun cd => cd.verified) = 0
    · have hstep : processFailedOne env c =
          { marked := r2MarkedCandidates env c, selection := none,
            engineCalled := false, result := none,
            events := (if env.enabled then [Event.llm "generate" c.original] else []) ++
              [Event.write "temp_candidates_verify.txt"
                 (joinLines ((r2GenOutcome env c).candidates.map (fun cd => cd.word))),
               Event.oracle] } := by
        unfold processFailedOne
        rw [if_neg h1, if_pos h2]
      rw [hstep]
      refine ⟨fun _ => ⟨rfl, rfl⟩, fun _ w hw => ?_⟩
      exfalso
      rw [List.countP_eq_length_filter, hw] at h2
      simp at h2
    · have hstep : processFailedOne env c =
          (let sel := select_best_candidate env c.original c.original_meaning
             (r2MarkedCandidates env c)
           { marked := r2MarkedCandidates env c, selection := some sel.1,
             engineCalled := sel.2,
             result :=
               match sel.1.selected with
               | some s =>
                 if sel.1.success = true ∧ s ≠ "" then
                   some { original := c.original, selected_word := s,
                          candidates := r2MarkedCandidates env c,
                          reason := sel.1.reason, confidence := sel.1.confidence,
                          original_meaning := c.original_meaning,
                          line_number := c.line_number }
                 else none
               | none => none,
             events := (if env.enabled then [Event.llm "generate" c.original] else []) ++
               [Event.write "temp_candidates_verify.txt"
                  (joinLines ((r2GenOutcome env c).candidates.map (fun cd => cd.word))),
                Event.oracle] ++
               (if sel.2 then [Event.llm "select" c.original] else []) }) := by
        unfold processFailedOne
        rw [if_neg h1, if_neg h2]
      rw [hstep]
      refine ⟨fun h0 => absurd h0 h2, fun he w hw => ?_⟩
      rw [select_best_single env c.original c.original_meaning
        (r2MarkedCandidates env c) w he hw]
      exact ⟨rfl, rfl⟩

theorem C6_witness :
    demoEnv.enabled = true ∧
    (processFailedOne demoEnv demoFailedRec).marked.filter (fun cd => cd.verified)
      = [{ word := "example", verified := true, reason := "root" }] ∧
    (processFailedOne demoEnv demoFailedRec).selection =
      some { success := true, selected := some "example",
             reason := "只有一个验证通过的候选词", confidence := "high" } ∧
    (processFailedOne demoEnv demoFailedRec).engineCalled = false :=
  ⟨rfl, by decide,
   ((C6_selection_guard demoEnv demoFailedRec).2 rfl
      { word := "example", verified := true, reason := "root" } (by decide)).1,
   ((C6_selection_guard demoEnv demoFailedRec).2 rfl
      { word := "example", verified := true, reason := "root" } (by decide)).2⟩

/-- C7: idempotence on clean input.  When the initial oracle partition
reports zero unrecognized words, a run of `check_words_with_bbdc`
performs no LLM call and writes no file at all — in particular it does
not mutate the word-list file and creates no backup. -/
theorem C7_idempotent_on_clean (env : PipelineEnv) (initResp : BBDCResponse)
    (filePath content : String) (use_llm : Bool) (p : ParsedResult)
    (hok : parse_result initResp = .ok p) (hclean : p.unrecognized = []) :
    ∀ e ∈ (check_words_with_bbdc env initResp filePath content use_llm).2,
      e.isLlm = false ∧ e.isWrite = false := by
  unfold check_words_with_bbdc
  rw [hok]
  simp only [hclean, List.map_nil]
  intro e he
  simp only [ne_eq, not_true_eq_false, and_false, if_false] at he
  have : e = Event.oracle := by simpa using he
  rw [this]
  exact ⟨rfl, rfl⟩

theorem C7_witness :
    parse_result (.okRaw "hello,world" "")
      = .ok { recognized := ["hello", "world"], unrecognized := [] } ∧
    ∀ e ∈ (check_words_with_bbdc demoEnv (.okRaw "hello,world" "")
             "words.txt" "hello\nworld" true).2,
      e.isLlm = false ∧ e.isWrite = false :=
  ⟨rfl,
   C7_idempotent_on_clean demoEnv (.okRaw "hello,world" "") "words.txt"
     "hello\nworld" true { recognized := ["hello", "world"], unrecognized := [] }
     rfl rfl⟩

/-- C8: round-1 verification coverage.  (i) Every round-1 proposal that
differs case-insensitively from its original is included in the batch
re-verification upload (`corrected_words`).  (ii) When that batch oracle
call happens and parses, every successful proposal — including one that
is case-insensitively unchanged — receives its `verified` flag from the
oracle check: `verified` is exactly membership of the lowercased
proposal in the lowercased recognized set (an unchanged proposal is
never auto-verified). -/
theorem C8_round1_verification (env : PipelineEnv) (details : List Detail)
    (filePath content : String) :
    (∀ c ∈ (auto_correct_with_llm env details filePath content).round1,
       pyLower c.corrected ≠ pyLower c.original →
       c.corrected ∈ (auto_correct_with_llm env details filePath content).correctedWords) ∧
    (∀ vp, parse_result env.round1Verify = .ok vp →
      (auto_correct_with_llm env details filePath content).correctedWords ≠ [] →
      ∀ c ∈ (auto_correct_with_llm env details filePath content).corrections,
        c.success = true →
        c.verified = (vp.recognized.map pyLower).contains (pyLower c.corrected)) := by
  constructor
  · intro c hc hdiff
    have hc' : c ∈ r1Records env details := hc
    have hsucc : c.success = true := by
      by_contra hns
      obtain ⟨d, _, rfl⟩ := List.mem_map.mp hc'
      have hfail : (round1Record env d).success = false := by
        simpa using hns
      exact hdiff (by
        show pyLower (correct_word env d.word d.meaning).corrected
            = pyLower (round1Record env d).original
        rw [correct_word_fail_corrected env d.word d.meaning hfail,
            round1Record_original env d])
    show c.corrected ∈ r1CorrectedWords (r1Records env details)
    exact List.mem_filterMap.mpr ⟨c, hc', by rw [if_pos ⟨hsucc, hdiff⟩]⟩
  · intro vp hvp hne c hc hsucc
    have hne' : r1CorrectedWords (r1Records env details) ≠ [] := hne
    have hcorr : (auto_correct_with_llm env details filePath content).corrections
        = (r1Records env details).map (markRound1 (vp.recognized.map pyLower)) := by
      show (round1Verify env filePath (r1Records env details)
        (r1CorrectedWords (r1Records env details))).1 = _
      unfold round1Verify
      rw [if_neg hne', hvp]
    rw [hcorr] at hc
    obtain ⟨c0, _, rfl⟩ := List.mem_map.mp hc
    rw [markRound1_corrected]
    rw [markRound1_success] at hsucc
    unfold markRound1
    rw [if_pos hsucc]
    by_cases hrec : (vp.recognized.map pyLower).contains (pyLower c0.corrected) = true
    · rw [if_pos hrec, hrec]
    · rw [if_neg hrec]
      simp only [Bool.not_eq_true] at hrec
      rw [hrec]

theorem C8_witness :
    (∀ c ∈ (auto_correct_with_llm demoEnv
        [{ word := "recieve", meaning := "to get", line_number := "1" },
         { word := "nlp", meaning := "acronym", line_number := "2" }]
        "words.txt" "recieve\nnlp").round1,
       pyLower c.corrected ≠ pyLower c.original →
       c.corrected ∈ (auto_correct_with_llm demoEnv
        [{ word := "recieve", meaning := "to get", line_number := "1" },
         { word := "nlp", meaning := "acronym", line_number := "2" }]
        "words.txt" "recieve\nnlp").correctedWords) ∧
    (auto_correct_with_llm demoEnv
        [{ word := "recieve", meaning := "to get", line_number := "1" },
         { word := "nlp", meaning := "acronym", line_number := "2" }]
        "words.txt" "recieve\nnlp").correctedWords = ["receive"] ∧
    parse_result demoEnv.round1Verify
      = .ok { recognized := ["receive"], unrecognized := ["nlp"] } ∧
    ∀ c ∈ (auto_correct_with_llm demoEnv
        [{ word := "recieve", meaning := "to get", line_number := "1" },
         { word := "nlp", meaning := "acronym", line_number := "2" }]
        "words.txt" "recieve\nnlp").corrections,
      c.success = true →
      c.verified = ((["receive"] : List String).map pyLower).contains (pyLower c.corrected) :=
  ⟨(C8_round1_verification demoEnv
      [{ word := "recieve", meaning := "to get", line_number := "1" },
       { word := "nlp", meaning := "acronym", line_number := "2" }]
      "words.txt" "recieve\nnlp").1,
   by decide, rfl,
   (C8_round1_verification demoEnv
      [{ word := "recieve", meaning := "to get", line_number := "1" },
       { word := "nlp", meaning := "acronym", line_number := "2" }]
      "words.txt" "recieve\nnlp").2
     { recognized := ["receive"], unrecognized := ["nlp"] } rfl (by decide)⟩

/-! ## Claim C2 infrastructure -/

/-- A second-round result produced for a failed correction keeps that
correction's original word. -/
theorem processFailedOne_result_original (env : PipelineEnv) (c : CorrectionRec)
    (r : R2Result) (h : (processFailedOne env c).result = some r) :
    r.original = c.original := by
  simp only [processFailedOne] at h
  split at h
  · simp at h
  · split at h
    · simp at h
    · split at h
      · split at h
        · obtain rfl := Option.some.inj h
          rfl
        · simp at h
      · simp at h

/-- Mapping after a `filterMap` that preserves a projection yields a
sublist of the projection of the original list. -/
theorem map_filterMap_sublist {α β γ : Type} (g : α → Option β) (f : β → γ)
    (f' : α → γ) (h : ∀ a b, g a = some b → f b = f' a) :
    ∀ l : List α, ((l.filterMap g).map f).Sublist (l.map f')
  | [] => by simp
  | a :: l => by
    cases hg : g a with
    | none =>
      rw [List.filterMap_cons_none hg, List.map_cons]
      exact (map_filterMap_sublist g f f' h l).cons _
    | some b =>
      rw [List.filterMap_cons_some hg, List.map_cons, List.map_cons, h a b hg]
      exact (map_filterMap_sublist g f f' h l).cons₂ _

/-- The round-1 records' originals are exactly the detail words. -/
theorem r1Records_originals (env : PipelineEnv) (details : List Detail) :
    (r1Records env details).map (fun c => c.original)
      = details.map (fun d => d.word) := by
  unfold r1Records
  rw [List.map_map]
  exact List.map_congr_left (fun d _ => round1Record_original env d)

/-- The marking loop never changes which originals are present. -/
theorem round1Verify_fst_originals (env : PipelineEnv) (fp : String)
    (r1 : List CorrectionRec) (cw : List String) :
    ((round1Verify env fp r1 cw).1).map (fun c => c.original)
      = r1.map (fun c => c.original) := by
  unfold round1Verify
  split
  · rfl
  · split
    · rfl
    · show ((r1.map (markRound1 _)).map fun c => c.original) = _
      rw [List.map_map]
      exact List.map_congr_left (fun c _ => markRound1_original _ c)

/-- The `verified_corrections` list of round 1 consists exactly of the
marked records with `verified = true`, in order. -/
theorem round1Verify_snd_filter (env : PipelineEnv) (fp : String)
    (details : List Detail) (cw : List String) :
    (round1Verify env fp (r1Records env details) cw).2.1
      = ((round1Verify env fp (r1Records env details) cw).1).filter
          (fun c => c.verified) := by
  have hall : ∀ c ∈ r1Records env details, ¬(c.verified = true) := by
    intro c hc
    have hc' : c ∈ details.map (round1Record env) := hc
    obtain ⟨d, _, rfl⟩ := List.mem_map.mp hc'
    simp [round1Record_unverified]
  unfold round1Verify
  split
  · exact (List.filter_eq_nil_iff.mpr hall).symm
  · split
    · exact (List.filter_eq_nil_iff.mpr hall).symm
    · rfl

/-- C2: at most one correction per original word.  When the unrecognized
words are pairwise distinct case-insensitively (the extraction step
deduplicates case-insensitively, and the data model keys entries by the
case-insensitive original word), the list handed to the file mutation
step carries pairwise-distinct originals; every second-round result
belongs to a round-1 record that failed verification; and a word whose
round-1 correction was verified never receives a second-round result. -/
theorem C2_at_most_one_correction (env : PipelineEnv) (details : List Detail)
    (filePath content : String)
    (hnd : (details.map (fun d => pyLower d.word)).Nodup) :
    ((auto_correct_with_llm env details filePath content).allToApply.map
        (fun c => c.original)).Nodup ∧
    (∀ r ∈ (auto_correct_with_llm env details filePath content).secondRound,
       ∃ c ∈ (auto_correct_with_llm env details filePath content).corrections,
         c.original = r.original ∧ c.verified = false) ∧
    (∀ c ∈ (auto_correct_with_llm env details filePath content).corrections,
       c.verified = true →
       ∀ r ∈ (auto_correct_with_llm env details filePath content).secondRound,
         r.original ≠ c.original) := by
  have horig : ((auto_correct_with_llm env details filePath content).corrections).map
      (fun c => c.original) = details.map (fun d => d.word) := by
    show ((round1Verify env filePath (r1Records env details)
      (r1CorrectedWords (r1Records env details))).1).map (fun c => c.original) = _
    rw [round1Verify_fst_originals]
    exact r1Records_originals env details
  have hnodup_words : (details.map (fun d => d.word)).Nodup := by
    have hmm : details.map (fun d => pyLower d.word)
        = (details.map (fun d => d.word)).map pyLower := by
      rw [List.map_map]
      rfl
    rw [hmm] at hnd
    exact hnd.of_map
  have hnodupC : (((auto_correct_with_llm env details filePath content).corrections).map
      (fun c => c.original)).Nodup := by
    rw [horig]; exact hnodup_words
  have hV : (auto_correct_with_llm env details filePath content).verifiedR1
      = ((auto_correct_with_llm env details filePath content).corrections).filter
          (fun c => c.verified) :=
    round1Verify_snd_filter env filePath details
      (r1CorrectedWords (r1Records env details))
  have hnodupVF :
      (((auto_correct_with_llm env details filePath content).verifiedR1).map
          (fun c => c.original) ++
        (((auto_correct_with_llm env details filePath content).corrections).filter
          (fun c => !c.verified)).map (fun c => c.original)).Nodup := by
    rw [hV]
    have hperm :=
      (List.filter_append_perm (fun c => c.verified)
        ((auto_correct_with_llm env details filePath content).corrections)).map
        (fun c => c.original)
    rw [List.map_append] at hperm
    exact (hperm.nodup_iff).mpr hnodupC
  -- characterize the second round
  have hsrEq : (auto_correct_with_llm env details filePath content).secondRound
      = (if (((auto_correct_with_llm env details filePath content).corrections).filter
              (fun c => !c.verified) ≠ [] ∧
            ((auto_correct_with_llm env details filePath content).corrections).countP
              (fun c => c.verified) <
            ((auto_correct_with_llm env details filePath content).corrections).length)
         then process_failed_corrections env
           (((auto_correct_with_llm env details filePath content).corrections).filter
             (fun c => !c.verified))
         else ([], [])).1 := rfl
  have h2 : ∀ r ∈ (auto_correct_with_llm env details filePath content).secondRound,
      ∃ c ∈ (auto_correct_with_llm env details filePath content).corrections,
        c.original = r.original ∧ c.verified = false := by
    intro r hr
    rw [hsrEq] at hr
    split at hr
    · have hr' : r ∈ (((auto_correct_with_llm env details filePath content).corrections).filter
          (fun c => !c.verified)).filterMap
          (fun c => (processFailedOne env c).result) := hr
      obtain ⟨c, hcF, hres⟩ := List.mem_filterMap.mp hr'
      refine ⟨c, List.mem_of_mem_filter hcF, (processFailedOne_result_original env c r hres).symm, ?_⟩
      have := List.of_mem_filter hcF
      simpa using this
    · simp at hr
  refine ⟨?_, h2, ?_⟩
  · -- Nodup of the applied originals
    have hataEq : (auto_correct_with_llm env details filePath content).allToApply
        = (if (auto_correct_with_llm env details filePath content).secondRound = []
           then (auto_correct_with_llm env details filePath content).verifiedR1
           else (auto_correct_with_llm env details filePath content).verifiedR1 ++
             ((auto_correct_with_llm env details filePath content).secondRound.filterMap
               (fun r => if r.selected_word ≠ "" then some (r2ToRec r) else none))) := rfl
    rw [hataEq]
    by_cases hsrnil : (auto_correct_with_llm env details filePath content).secondRound = []
    · rw [if_pos hsrnil]
      exact hnodupVF.of_append_left
    · rw [if_neg hsrnil, List.map_append]
      refine List.Nodup.sublist ?_ hnodupVF
      refine List.Sublist.append_left ?_ _
      -- second-round originals are a sublist of the failed originals
      have hs1 : ((((auto_correct_with_llm env details filePath content).secondRound).filterMap
            (fun r => if r.selected_word ≠ "" then some (r2ToRec r) else none)).map
            (fun c => c.original)).Sublist
          (((auto_correct_with_llm env details filePath content).secondRound).map
            (fun r => r.original)) := by
        refine map_filterMap_sublist _ _ _ ?_ _
        intro r b hb
        by_cases hsw : r.selected_word ≠ ""
        · rw [if_pos hsw] at hb
          obtain rfl := Option.some.inj hb
          rfl
        · rw [if_neg hsw] at hb
          exact absurd hb (by simp)
      have hs2 : (((auto_correct_with_llm env details filePath content).secondRound).map
            (fun r => r.original)).Sublist
          ((((auto_correct_with_llm env details filePath content).corrections).filter
            (fun c => !c.verified)).map (fun c => c.original)) := by
        rw [hsrEq]
        split
        · exact map_filterMap_sublist _ _ _
            (fun c b hb => processFailedOne_result_original env c b hb) _
        · simp
      exact hs1.trans hs2
  · -- a verified round-1 record never gets a second-round result
    intro c hc hcv r hr heq
    obtain ⟨c', hc', hc'o, hc'v⟩ := h2 r hr
    have hco : c.original = c'.original := by rw [hc'o, heq]
    have : c = c' :=
      List.inj_on_of_nodup_map hnodupC hc hc' hco
    rw [this, hc'v] at hcv
    exact Bool.false_ne_true hcv

theorem C2_witness :
    (([{ word := "recieve", meaning := "to get", line_number := "1" },
       { word := "nlp", meaning := "acronym", line_number := "2" }] :
        List Detail).map (fun d => pyLower d.word)).Nodup ∧
    (((auto_correct_with_llm demoEnv
        [{ word := "recieve", meaning := "to get", line_number := "1" },
         { word := "nlp", meaning := "acronym", line_number := "2" }]
        "words.txt" "recieve\nnlp").allToApply.map (fun c => c.original)).Nodup ∧
     (∀ r ∈ (auto_correct_with_llm demoEnv
        [{ word := "recieve", meaning := "to get", line_number := "1" },
         { word := "nlp", meaning := "acronym", line_number := "2" }]
        "words.txt" "recieve\nnlp").secondRound,
       ∃ c ∈ (auto_correct_with_llm demoEnv
        [{ word := "recieve", meaning := "to get", line_number := "1" },
         { word := "nlp", meaning := "acronym", line_number := "2" }]
        "words.txt" "recieve\nnlp").corrections,
         c.original = r.original ∧ c.verified = false) ∧
     (∀ c ∈ (auto_correct_with_llm demoEnv
        [{ word := "recieve", meaning := "to get", line_number := "1" },
         { word := "nlp", meaning := "acronym", line_number := "2" }]
        "words.txt" "recieve\nnlp").corrections,
       c.verified = true →
       ∀ r ∈ (auto_correct_with_llm demoEnv
        [{ word := "recieve", meaning := "to get", line_number := "1" },
         { word := "nlp", meaning := "acronym", line_number := "2" }]
        "words.txt" "recieve\nnlp").secondRound,
         r.original ≠ c.original)) :=
  ⟨by decide,
   C2_at_most_one_correction demoEnv
     [{ word := "recieve", meaning := "to get", line_number := "1" },
      { word := "nlp", meaning := "acronym", line_number := "2" }]
     "words.txt" "recieve\nnlp" (by decide)⟩

/-- C1 (code bug witnessed on a concrete failing input): with round-1
proposal `xqpl` rejected by the oracle, candidates `example` and
`template` both verified, and the selection engine replying with the
out-of-list word `zzzz`, the pipeline marks `zzzz` as
`✅ 二次处理验证通过` and writes it into the word-list file — although
no oracle verification call ever reported `zzzz` recognized (the two
oracle calls of the run returned the recognized sets `[]` and
`[example, template]`).  The full effect trace of the run is listed. -/
theorem C1_unverified_word_applied :
    (auto_correct_with_llm c1env
        [{ word := "xqplm", meaning := "unclear", line_number := "3" }]
        "words.txt" "xqplm").newContent = "zzzz" ∧
    (auto_correct_with_llm c1env
        [{ word := "xqplm", meaning := "unclear", line_number := "3" }]
        "words.txt" "xqplm").allToApply.map
        (fun c => (c.original, c.corrected, c.verified, c.verification_status))
      = [("xqplm", "zzzz", true, "✅ 二次处理验证通过")] ∧
    (auto_correct_with_llm c1env
        [{ word := "xqplm", meaning := "unclear", line_number := "3" }]
        "words.txt" "xqplm").events
      = [Event.llm "correct" "xqplm",
         Event.write "words_llm_corrected_temp.txt" "xqpl\n",
         Event.oracle,
         Event.llm "generate" "xqplm",
         Event.write "temp_candidates_verify.txt" "example\ntemplate\n",
         Event.oracle,
         Event.llm "select" "xqplm",
         Event.read "words.txt",
         Event.write "words.txt.backup" "xqplm",
         Event.write "words.txt" "zzzz"] ∧
    parse_result c1env.round1Verify
      = .ok { recognized := [], unrecognized := ["xqpl"] } ∧
    parse_result (c1env.candVerify "xqplm")
      = .ok { recognized := ["example", "template"], unrecognized := [] } ∧
    ("zzzz" ∉ ([] : List String) ∧
     "zzzz" ∉ (["example", "template"] : List String)) :=
  ⟨rfl, by decide, by decide, rfl, rfl, by decide⟩

end BBDC
